import Mathlib

/-!
# Agent infrastructure: execution-logging lifecycle and handler envelopes

Shallow embedding of the JavaScript sources of the `agent-infrastructure`
repository:

* `src/lib/supabase.js` — the Execution Logger (`logExecutionStart`,
  `logExecutionComplete`, `logExecutionError`) and the Conversation Accessor
  (`getOrCreateConversation`).
* the Nova marketing-writer worker (`fetch` handler, `getVoiceExamples`,
  `searchNotionWorkspace`, `generateContent`).
* `src/workers/ada-form-analyzer/worker.js` — the Ada form-analyzer worker
  (`fetch` handler, `determineFormType`, `sendEmail`).

JavaScript exceptions are modelled with `Except JsError`; the outcome of each
outbound network call (Supabase, Notion, Anthropic, Resend) is an explicit
oracle argument, so a theorem quantifying over oracles quantifies over all
behaviours of the external services.  The durable store is threaded through as
explicit state, and every durable write performed by a run is collected in a
trace of `SideCall`s.
-/

namespace AgentInfra

/-- JSON values, as produced and consumed by the workers.  Numbers are
modelled as integers (every number the workers put into JSON is a count,
a duration in milliseconds, or an id). -/
inductive Json where
  | null : Json
  | bool : Bool → Json
  | str : String → Json
  | num : Int → Json
  | arr : List Json → Json
  | obj : List (String × Json) → Json

instance : Inhabited Json := ⟨Json.null⟩

/-- Property access `j.k` in JS: `none` models `undefined` (absent key, or
access on a non-object primitive). -/
def Json.getKey : Json → String → Option Json
  | .obj fields, k => fields.lookup k
  | _, _ => none

/-- JS truthiness of a JSON value: `null`, `false`, `0` and `""` are falsy. -/
def Json.truthy : Json → Bool
  | .null => false
  | .bool b => b
  | .str s => !(s == "")
  | .num n => !(n == 0)
  | .arr _ => true
  | .obj _ => true

/-- A JS `undefined` (absent value) serialises/behaves as `null` where the
workers store it. -/
def jsUndef : Option Json → Json
  | none => .null
  | some j => j

/-- `s || null` on an optional string: `undefined`, `null` and `""` all
collapse to `null`. -/
def jsOrNullStr : Option String → Option String
  | none => none
  | some s => if s == "" then none else some s

/-- `v || null` on an optional JSON value (JS `||` with falsy left operand). -/
def jsOrNullJson : Option Json → Json
  | none => .null
  | some j => if j.truthy then j else .null

/-- Escaping of `"` and backslash performed by `JSON.stringify` on strings
(control-character escapes are not exercised by any value in this
development). -/
def jsEscape (s : String) : String :=
  s.foldl (fun acc c =>
    if c = '\\' then acc ++ "\\\\"
    else if c = '"' then acc ++ "\\\""
    else acc.push c) ""

mutual

/-- `JSON.stringify` on the `Json` model. -/
def Json.stringify : Json → String
  | .null => "null"
  | .bool true => "true"
  | .bool false => "false"
  | .str s => "\"" ++ jsEscape s ++ "\""
  | .num n => toString n
  | .arr xs => "[" ++ stringifyItems xs ++ "]"
  | .obj fs => "\x7b" ++ stringifyFields fs ++ "\x7d"

/-- Comma-separated serialisation of array elements. -/
def stringifyItems : List Json → String
  | [] => ""
  | [x] => Json.stringify x
  | x :: y :: rest => Json.stringify x ++ "," ++ stringifyItems (y :: rest)

/-- Comma-separated serialisation of object fields. -/
def stringifyFields : List (String × Json) → String
  | [] => ""
  | [(k, v)] => "\"" ++ jsEscape k ++ "\":" ++ Json.stringify v
  | (k, v) :: y :: rest =>
      "\"" ++ jsEscape k ++ "\":" ++ Json.stringify v ++ "," ++ stringifyFields (y :: rest)

end

/-- A thrown JavaScript error: its `message` and its `stack`.  Stack text is
runtime-dependent; runtime-thrown `TypeError`s are modelled as carrying their
message in the stack. -/
structure JsError where
  message : String
  stack : String := ""
deriving Repr, DecidableEq, Inhabited

/-- A runtime `TypeError` (property access on `undefined`/`null`, calling a
non-function, destructuring `null`). -/
def tyErr (msg : String) : JsError :=
  { message := msg, stack := "TypeError: " ++ msg }

/-- Body of an HTTP response as the workers build it: absent (`null`),
plain text, or `JSON.stringify` of a JSON value (sent with
`Content-Type: application/json`). -/
inductive Body where
  | empty : Body
  | text : String → Body
  | json : Json → Body

/-- An HTTP response produced by a worker (`new Response(...)`).  CORS
headers carry no information relevant to any claim and are omitted. -/
structure HttpResp where
  status : Nat := 200
  body : Body

/-- Field lookup in a JSON response body (`none` when the body is not JSON or
the key is absent). -/
def HttpResp.bodyField (r : HttpResp) (k : String) : Option Json :=
  match r.body with
  | .json j => j.getKey k
  | _ => none

/-! ## The durable store: `agent_executions` rows -/

/-- One row of the `agent_executions` table. -/
structure ExecRecord where
  id : Nat
  conversation_id : Option String
  agent_id : String
  input : Json
  status : String
  output : Option Json := none
  error_message : Option String := none
  duration_ms : Option Int := none
  created_at : String

/-- The `agent_executions` table with its id sequence. -/
structure ExecStore where
  records : List ExecRecord
  nextId : Nat := 1

/-- Well-formedness of the store: every existing id is below the sequence
counter, so freshly assigned ids never collide. -/
def ExecStore.WF (st : ExecStore) : Prop :=
  ∀ r ∈ st.records, r.id < st.nextId

/-- Outcome of one REST call against the durable store, from the caller's
point of view: the network layer may throw, the store may reject the request
(non-2xx reply, nothing written), or accept it. -/
inductive StoreAvail where
  | down : JsError → StoreAvail
  | reject : String → StoreAvail
  | accept : StoreAvail
deriving Repr, DecidableEq, Inhabited

/-- The `PATCH` payload sent by `logExecutionComplete` / `logExecutionError`
(only the listed columns are updated). -/
structure ExecPatchBody where
  status : String
  output : Option Json := none
  error_message : Option String := none
  duration_ms : Int

/-- Outbound destination address data of the Ada notification email. -/
structure EmailPayload where
  fromAddr : String
  toAddr : String
  cc : List String
deriving Repr, DecidableEq, Inhabited

/-- Durable writes and outbound sends performed by a handler run.
`execInsert`/`execPatch`/`convInsert` record writes the store accepted;
`email` records a send request that reached the email service. -/
inductive SideCall where
  | execInsert : ExecRecord → SideCall
  | execPatch : Nat → ExecPatchBody → SideCall
  | convInsert : Nat → String → SideCall
  | email : EmailPayload → SideCall

/-- Does a side call write to the execution log? -/
def SideCall.isExecWrite : SideCall → Bool
  | .execInsert _ => true
  | .execPatch _ _ => true
  | _ => false

/-- Applying a `PATCH` body to a row: listed columns are overwritten, the
rest keep their value. -/
def applyPatch (r : ExecRecord) (p : ExecPatchBody) : ExecRecord :=
  { r with
    status := p.status
    output := match p.output with | some o => some o | none => r.output
    error_message := match p.error_message with | some m => some m | none => r.error_message
    duration_ms := some p.duration_ms }

/-- The store after an accepted `PATCH` of the rows with the given id. -/
def patchStore (st : ExecStore) (id : Nat) (p : ExecPatchBody) : ExecStore :=
  { st with records := st.records.map (fun r => if r.id = id then applyPatch r p else r) }

/-- Reply to the insert `fetch` (`Prefer: return=representation` makes an
accepted insert return the created row). -/
structure InsertReply where
  ok : Bool
  rows : List ExecRecord

/-- `fetch` `POST /rest/v1/agent_executions`: throws when the store is down;
writes nothing on a non-2xx reply; on accept assigns a fresh id, inserts the
row and returns it. -/
def execInsertFetch (avail : StoreAvail) (st : ExecStore) (entry : ExecRecord) :
    Except JsError (InsertReply × ExecStore × List SideCall) :=
  match avail with
  | .down e => .error e
  | .reject _ => .ok ({ ok := false, rows := [] }, st, [])
  | .accept =>
      let r := { entry with id := st.nextId }
      .ok ({ ok := true, rows := [r] },
           { records := st.records ++ [r], nextId := st.nextId + 1 },
           [SideCall.execInsert r])

/-- `fetch` `PATCH /rest/v1/agent_executions?id=eq.{id}`: throws when the
store is down; writes nothing on a non-2xx reply; on accept updates the rows
with the given id. -/
def execPatchFetch (avail : StoreAvail) (st : ExecStore) (id : Nat) (p : ExecPatchBody) :
    Except JsError (Bool × ExecStore × List SideCall) :=
  match avail with
  | .down e => .error e
  | .reject _ => .ok (false, st, [])
  | .accept =>
      .ok (true, patchStore st id p, [SideCall.execPatch id p])

/-! ## Execution Logger (src/lib/supabase.js)

Each function returns `(result, store, trace)`; the `Except` in the result
captures whether the function throws to its caller (the bodies are wrapped in
`try`/`catch` in the source, so all of them provably return `.ok`). -/

/-- `logExecutionStart(supabaseUrl, supabaseKey, conversationId, agentId, input)`.
Builds a `running` row and inserts it.  A transport error is caught and
yields `null`; a non-2xx reply yields `null`; otherwise the created row id is
returned (`result[0]?.id || null`, so a falsy id also yields `null`). -/
def logExecutionStart (avail : StoreAvail) (st : ExecStore)
    (conversationId : Option String) (agentId : String) (input : Json) (now : String) :
    Except JsError (Option Nat) × ExecStore × List SideCall :=
  let logEntry : ExecRecord :=
    { id := 0, conversation_id := jsOrNullStr conversationId, agent_id := agentId,
      input := input, status := "running", created_at := now }
  match execInsertFetch avail st logEntry with
  | .error _ => (.ok none, st, [])
  | .ok (reply, st2, tr) =>
      if !reply.ok then (.ok none, st2, tr)
      else
        match reply.rows.head? with
        | some r => (.ok (if r.id = 0 then none else some r.id), st2, tr)
        | none => (.ok none, st2, tr)

/-- `logExecutionComplete(supabaseUrl, supabaseKey, executionId, output, durationMs)`.
No-op when `executionId` is falsy; otherwise patches the row to `success`.
Both a transport error and a non-2xx reply are swallowed. -/
def logExecutionComplete (avail : StoreAvail) (st : ExecStore)
    (executionId : Option Nat) (output : Json) (durationMs : Int) :
    Except JsError Unit × ExecStore × List SideCall :=
  match executionId with
  | none => (.ok (), st, [])
  | some i =>
      if i = 0 then (.ok (), st, [])
      else
        match execPatchFetch avail st i
            { status := "success", output := some output, duration_ms := durationMs } with
        | .error _ => (.ok (), st, [])
        | .ok (_, st2, tr) => (.ok (), st2, tr)

/-- `logExecutionError(supabaseUrl, supabaseKey, executionId, errorMessage, durationMs)`.
No-op when `executionId` is falsy; otherwise patches the row to `error`.
Both a transport error and a non-2xx reply are swallowed. -/
def logExecutionError (avail : StoreAvail) (st : ExecStore)
    (executionId : Option Nat) (errorMessage : String) (durationMs : Int) :
    Except JsError Unit × ExecStore × List SideCall :=
  match executionId with
  | none => (.ok (), st, [])
  | some i =>
      if i = 0 then (.ok (), st, [])
      else
        match execPatchFetch avail st i
            { status := "error", error_message := some errorMessage, duration_ms := durationMs } with
        | .error _ => (.ok (), st, [])
        | .ok (_, st2, tr) => (.ok (), st2, tr)

/-! ## Nova — the marketing-writer worker

The worker file inlines byte-identical copies of the supabase.js helpers
(the only difference is one extra constant `form_type: null` column in the
insert body, which is not modelled); the shared definitions above are used
for both. -/

/-- `response.ok` in JS: status in the 2xx range. -/
def replyOk (status : Nat) : Bool := 200 ≤ status && status < 300

/-- A voice-example page as extracted by `getVoiceExamples` from a Notion
query result (`content`, `tags`, `platform`); the property drilling
(`page.properties.Content?.rich_text?.[0]?.plain_text || ""` etc.) is
modelled by taking the extracted fields directly. -/
structure VoicePage where
  content : String
  tags : List String
  platform : String
deriving Repr, DecidableEq, Inhabited

/-- Outcome of the Notion database query issued by `getVoiceExamples`. -/
inductive NotionQueryOut where
  | netThrow : JsError → NotionQueryOut
  | notOk : String → NotionQueryOut
  | ok : List VoicePage → NotionQueryOut
deriving Repr, DecidableEq, Inhabited

/-- `getVoiceExamples(notionToken, databaseId, platform)` (Nova worker).
A transport error is caught and yields `[]`; a non-2xx reply yields `[]`;
otherwise the extracted pages are kept and those with empty `content` are
dropped (`.filter(ex => ex.content)`). -/
def getVoiceExamples : NotionQueryOut → Except JsError (List VoicePage)
  | .netThrow _ => .ok []
  | .notOk _ => .ok []
  | .ok pages => .ok (pages.filter (fun p => !(p.content == "")))

/-- A context document as assembled by `searchNotionWorkspace` (title and
concatenated block text). -/
structure ContextDoc where
  title : String
  content : String
deriving Repr, DecidableEq, Inhabited

/-- Outcome of the Notion workspace search issued by `searchNotionWorkspace`;
on `ok` the per-page content fetches (each with its own try/catch whose
failures are dropped by `.filter(Boolean)`) are folded into the resulting
document list. -/
inductive NotionSearchOut where
  | netThrow : JsError → NotionSearchOut
  | notOk : String → NotionSearchOut
  | ok : List ContextDoc → NotionSearchOut
deriving Repr, DecidableEq, Inhabited

/-- `searchNotionWorkspace(notionToken, topic, platform)` (Nova worker).
Every failure path is caught and yields `[]`. -/
def searchNotionWorkspace : NotionSearchOut → Except JsError (List ContextDoc)
  | .netThrow _ => .ok []
  | .notOk _ => .ok []
  | .ok docs => .ok docs

/-- Outcome of the Anthropic messages call issued by `generateContent`:
either the `fetch` itself rejects, or a reply arrives with a status, its raw
body text, and the result of `JSON.parse` on that text (`none` when parsing
throws). -/
inductive AnthropicOut where
  | netThrow : JsError → AnthropicOut
  | reply : Nat → String → Option Json → AnthropicOut

/-- `generateContent(topic, platform, style, voiceExamples, contextDocs, apiKey)`
(Nova worker).  The prompt construction is pure string templating with no
effect on control flow and is not modelled.  There is no try/catch here
except around `JSON.parse`: a rejected `fetch` propagates; an unparseable
body throws a wrapped parse error; a parseable non-2xx reply throws a
wrapped status error; otherwise `data.content[0].text` is returned (`none`
models the JS `undefined` when the `text` property is absent; a parsed body
without a first `content` element throws a `TypeError`). -/
def generateContent (o : AnthropicOut) : Except JsError (Option Json) :=
  match o with
  | .netThrow e => .error e
  | .reply status bodyText parsed =>
    match parsed with
    | none => .error { message := "Failed to parse Anthropic response: " ++ bodyText }
    | some data =>
      if !(replyOk status) then
        .error { message := "Claude API error (" ++ toString status ++ "): " ++ data.stringify }
      else
        match data.getKey "content" with
        | some (.arr (first :: _)) => .ok (first.getKey "text")
        | _ => .error (tyErr "Cannot read properties of undefined")

/-- Environment bindings of the Nova worker (`none` models an unset
variable). -/
structure NovaEnv where
  anthropicApiKey : Option String := none
  notionToken : Option String := none
  notionDatabaseId : Option String := none
  supabaseUrl : Option String := none
  supabaseKey : Option String := none
deriving Repr, DecidableEq, Inhabited

/-- `!!env.X` on an environment binding (an empty string is falsy). -/
def envFlag : Option String → Bool
  | none => false
  | some s => !(s == "")

/-- Body of the Nova `GET` (test endpoint) response. -/
def novaGetBody (env : NovaEnv) : Json :=
  .obj [("message", .str "Nova is running"),
        ("hasAnthropicKey", .bool (envFlag env.anthropicApiKey)),
        ("hasNotionToken", .bool (envFlag env.notionToken)),
        ("hasNotionDatabase", .bool (envFlag env.notionDatabaseId)),
        ("hasSupabaseUrl", .bool (envFlag env.supabaseUrl)),
        ("hasSupabaseKey", .bool (envFlag env.supabaseKey))]

/-- External behaviour visible to one Nova `POST` run: the parse outcome of
the request body, the availability of the logging store at the start write
and at the terminal write, the three collaborator outcomes, the two
`Date.now()` readings and the two `toISOString()` readings. -/
structure NovaOracle where
  reqJson : Except JsError Json
  startAvail : StoreAvail
  finishAvail : StoreAvail
  voice : NotionQueryOut
  search : NotionSearchOut
  llm : AnthropicOut
  t0 : Int
  t1 : Int
  isoStart : String
  isoFinish : String

/-- `const \x7b topic, platform, style \x7d = await request.json()`:
destructuring `null` throws a `TypeError`; on any other value the three
properties are read (absent ones are `undefined`). -/
def destructTPS (body : Json) :
    Except JsError (Option Json × Option Json × Option Json) :=
  match body with
  | .null => .error (tyErr "Cannot destructure property topic of null")
  | b => .ok (b.getKey "topic", b.getKey "platform", b.getKey "style")

/-- An object field that is dropped when the value is JS `undefined`
(mirroring `JSON.stringify`). -/
def optField (k : String) : Option Json → List (String × Json)
  | some j => [(k, j)]
  | none => []

/-- The `input` capture sent to `logExecutionStart` by Nova:
`\x7b topic: topic, platform: platform, style: style || null \x7d`. -/
def novaInput (topic platform style : Option Json) : Json :=
  .obj (optField "topic" topic ++ optField "platform" platform ++
        [("style", jsOrNullJson style)])

/-- `executionId` as placed in the response metadata. -/
def execIdJson : Option Nat → Json
  | none => .null
  | some i => .num i

/-- The `metadata` object of a Nova response. -/
def novaMeta (eid : Option Nat) (iso : String) : Json :=
  .obj [("agentId", .str "nova"), ("executionId", execIdJson eid),
        ("timestamp", .str iso)]

/-- The Nova success response (HTTP 200). -/
def mkNovaSuccess (output : Json) (eid : Option Nat) (iso : String) : HttpResp :=
  { status := 200,
    body := .json (.obj [("success", .bool true), ("output", output),
                         ("error", .null), ("metadata", novaMeta eid iso)]) }

/-- The Nova failure response (HTTP 500). -/
def mkNovaError (msg : String) (eid : Option Nat) (iso : String) : HttpResp :=
  { status := 500,
    body := .json (.obj [("success", .bool false), ("output", .null),
                         ("error", .str msg), ("metadata", novaMeta eid iso)]) }

/-- The `catch` block of the Nova handler: computes the elapsed duration,
calls `logExecutionError` (a no-op when `executionId` is still `null`) and
returns the 500 failure envelope.  A throw out of `logExecutionError` itself
would escape the handler uncaught (the `.error` branch; provably
unreachable). -/
def novaCatch (o : NovaOracle) (st : ExecStore) (tr : List SideCall)
    (eid : Option Nat) (e : JsError) :
    Except JsError HttpResp × ExecStore × List SideCall :=
  match logExecutionError o.finishAvail st eid e.message (o.t1 - o.t0) with
  | (.error e2, st2, tr2) => (.error e2, st2, tr ++ tr2)
  | (.ok _, st2, tr2) => (.ok (mkNovaError e.message eid o.isoFinish), st2, tr ++ tr2)

/-- The `try` block of the Nova `POST` flow with its `catch` routing: parse
the body, log the start (capturing the possibly-null execution id), fetch
voice examples and context docs, generate content, log completion and
return the success envelope; any throw lands in `novaCatch` with the current
execution id and the store state at the time of the throw. -/
def novaPost (o : NovaOracle) (st : ExecStore) :
    Except JsError HttpResp × ExecStore × List SideCall :=
  match o.reqJson with
  | .error e => novaCatch o st [] none e
  | .ok body =>
    match destructTPS body with
    | .error e => novaCatch o st [] none e
    | .ok (topic, platform, style) =>
      match logExecutionStart o.startAvail st none "nova"
          (novaInput topic platform style) o.isoStart with
      | (.error e, st1, tr1) => novaCatch o st1 tr1 none e
      | (.ok eid, st1, tr1) =>
        match getVoiceExamples o.voice with
        | .error e => novaCatch o st1 tr1 eid e
        | .ok voiceExamples =>
          match searchNotionWorkspace o.search with
          | .error e => novaCatch o st1 tr1 eid e
          | .ok contextDocs =>
            match generateContent o.llm with
            | .error e => novaCatch o st1 tr1 eid e
            | .ok draft =>
              let output : Json :=
                .obj (optField "draft" draft ++
                      [("voiceExamplesUsed", .num (voiceExamples.length : Int)),
                       ("contextDocsUsed", .num (contextDocs.length : Int))])
              match logExecutionComplete o.finishAvail st1 eid output (o.t1 - o.t0) with
              | (.error e, st2, tr2) => novaCatch o st2 (tr1 ++ tr2) eid e
              | (.ok _, st2, tr2) =>
                  (.ok (mkNovaSuccess output eid o.isoFinish), st2, tr1 ++ tr2)

/-- The Nova `fetch` handler: `OPTIONS` preflight, `GET` test endpoint,
405 for any other non-`POST` method, then the `POST` flow.  The environment
bindings feed only the `GET` body; inside the `POST` flow their values are
subsumed by the collaborator oracles. -/
def novaFetch (method : String) (env : NovaEnv) (o : NovaOracle) (st : ExecStore) :
    Except JsError HttpResp × ExecStore × List SideCall :=
  if method == "OPTIONS" then (.ok { status := 200, body := .empty }, st, [])
  else if method == "GET" then
    (.ok { status := 200, body := .json (novaGetBody env) }, st, [])
  else if !(method == "POST") then
    (.ok { status := 405, body := .text "Method not allowed" }, st, [])
  else novaPost o st

/-! ## Ada — the form-analyzer worker (src/workers/ada-form-analyzer/worker.js) -/

/-- Environment bindings of the Ada worker. -/
structure AdaEnv where
  resendApiKey : Option String := none
  anthropicApiKey : Option String := none
deriving Repr, DecidableEq, Inhabited

/-- `env.X?.substring(0, 10) || "NO KEY"`. -/
def keyHead (s : Option String) : String :=
  match s with
  | none => "NO KEY"
  | some t => if (t.take 10) == "" then "NO KEY" else t.take 10

/-- Body of the Ada `GET` (test endpoint) response. -/
def adaGetBody (env : AdaEnv) : Json :=
  .obj [("message", .str "Worker is running"),
        ("hasResendKey", .bool (envFlag env.resendApiKey)),
        ("resendKeyPrefix", .str (keyHead env.resendApiKey)),
        ("hasAnthropicKey", .bool (envFlag env.anthropicApiKey)),
        ("anthropicKeyPrefix", .str (keyHead env.anthropicApiKey))]

/-- `v?.toLowerCase() || ""` on a JS value: absent and `null` give `""`; a
string is lowercased; any other value throws (`toLowerCase` is not a
function). -/
def lowerOrEmpty : Option Json → Except JsError String
  | none => .ok ""
  | some .null => .ok ""
  | some (.str s) => .ok s.toLower
  | some _ => .error (tyErr "toLowerCase is not a function")

/-- Is `p` an infix of the character list? -/
def charsInfix (p : List Char) : List Char → Bool
  | [] => List.isPrefixOf p []
  | c :: rest => List.isPrefixOf p (c :: rest) || charsInfix p rest

/-- JS `s.includes(pat)` on strings. -/
def strIncludes (s pat : String) : Bool := charsInfix pat.toList s.toList

/-- `formData.fields.map(f => f.label?.toLowerCase() || "")`; a `null`
element or a non-string label throws inside the callback and propagates. -/
def mapLabels : List Json → Except JsError (List String)
  | [] => .ok []
  | .null :: _ => .error (tyErr "Cannot read properties of null (reading label)")
  | f :: rest =>
    match lowerOrEmpty (f.getKey "label") with
    | .error e => .error e
    | .ok l =>
      match mapLabels rest with
      | .error e => .error e
      | .ok ls => .ok (l :: ls)

/-- `determineFormType(formData)` (Ada worker): check the form name for
"helper" / "request", else fall back to scanning field labels for
"skills offered", defaulting to "request".  Reading `formName` off an absent
or `null` `formData`, or `.map` off absent/`null`/non-array `fields`, throws
a `TypeError`. -/
def determineFormType (formData : Option Json) : Except JsError String :=
  match formData with
  | none => .error (tyErr "Cannot read properties of undefined (reading formName)")
  | some .null => .error (tyErr "Cannot read properties of null (reading formName)")
  | some fd =>
    match lowerOrEmpty (fd.getKey "formName") with
    | .error e => .error e
    | .ok formName =>
      if strIncludes formName "helper" then .ok "helper"
      else if strIncludes formName "request" then .ok "request"
      else
        match fd.getKey "fields" with
        | some (.arr fs) =>
          match mapLabels fs with
          | .error e => .error e
          | .ok labels =>
            if labels.any (fun l => strIncludes l "skills offered") then .ok "helper"
            else .ok "request"
        | _ => .error (tyErr "Cannot read properties of undefined (reading map)")

/-- Outcome of the Resend email call inside `sendEmail`: either a throw
before/at the network layer (which also covers a throw while building the
email config, since both land in the same `catch`), or a reply with a status
and parsed JSON body. -/
inductive ResendOut where
  | netThrow : JsError → ResendOut
  | reply : Nat → Json → ResendOut

/-- The result object returned by `sendEmail` (fields that a branch does not
set are JS `undefined`, modelled as `none`). -/
structure EmailResult where
  success : Bool
  data : Option Json := none
  error : Option String := none
  responseText : Option String := none
  stack : Option String := none

/-- The fixed addressing of the Ada notification email (`sendEmail`). -/
def adaEmailPayload : EmailPayload :=
  { fromAddr := "Ada (Jacob\x27s AI Assistant) <noreply@agent.jacobbrain.com>",
    toAddr := "joel0954@comcast.net",
    cc := ["jbrainiv@gmail.com", "jacob.brain@mvccfrederick.com"] }

/-- `sendEmail(formData, analysis, formType, apiKey)` (Ada worker).  The
subject/HTML template construction (`buildRequestEmail`/`buildHelperEmail`)
is pure string templating that affects no claim and is not captured in the
payload.  The whole body is wrapped in try/catch, so the function never
throws: a throw yields a failure result carrying message and stack; a
non-2xx reply yields a failure result carrying the service reply; a 2xx
reply yields success. -/
def sendEmail (o : ResendOut) : Except JsError (EmailResult × List SideCall) :=
  match o with
  | .netThrow e =>
      .ok ({ success := false, error := some e.message, stack := some e.stack }, [])
  | .reply status result =>
      if replyOk status then
        .ok ({ success := true, data := some result }, [SideCall.email adaEmailPayload])
      else
        .ok ({ success := false, data := some result,
               error := some ("Resend API returned " ++ toString status),
               responseText := some result.stringify },
             [SideCall.email adaEmailPayload])

/-- External behaviour visible to one Ada `POST` run. -/
structure AdaOracle where
  reqJson : Except JsError Json
  resend : ResendOut

/-- `s || null` rendered into a JSON field value. -/
def optStrOrNull (o : Option String) : Json :=
  match jsOrNullStr o with
  | some s => .str s
  | none => .null

/-- Body of the Ada success response: `success`, `formType`, the email
result fields, and a `debugInfo` object (fields that are JS `undefined` are
dropped by `JSON.stringify`). -/
def adaSuccessBody (env : AdaEnv) (formType : String) (er : EmailResult) : Json :=
  .obj ([("success", Json.bool true), ("formType", Json.str formType),
         ("emailSent", Json.bool er.success),
         ("emailError", optStrOrNull er.error),
         ("emailResponseText", optStrOrNull er.responseText)]
        ++ optField "emailData" er.data
        ++ [("debugInfo",
             Json.obj ([("hasResendKey", Json.bool (envFlag env.resendApiKey))]
               ++ optField "resendKeyPrefix"
                    (env.resendApiKey.map (fun s => Json.str (s.take 10)))
               ++ [("hasAnthropicKey", Json.bool (envFlag env.anthropicApiKey))]))])

/-- Body of the Ada failure response: `success`, `error` and the raw
`error.stack`. -/
def adaErrBody (e : JsError) : Json :=
  .obj [("success", .bool false), ("error", .str e.message), ("stack", .str e.stack)]

/-- The Ada `fetch` handler: `GET` test endpoint, 405 for any other
non-`POST` method, then the webhook flow (parse, determine form type, send
email — the Claude analysis step is skipped in the source, which hardcodes
`analysis = "Test analysis - Claude API skipped for debugging"`), with a
`catch` returning a 500 body that includes the error message and stack. -/
def adaFetch (method : String) (env : AdaEnv) (o : AdaOracle) :
    Except JsError HttpResp × List SideCall :=
  if method == "GET" then (.ok { status := 200, body := .json (adaGetBody env) }, [])
  else if !(method == "POST") then
    (.ok { status := 405, body := .text "Method not allowed" }, [])
  else
    match o.reqJson with
    | .error e => (.ok { status := 500, body := .json (adaErrBody e) }, [])
    | .ok webhookData =>
      match determineFormType (webhookData.getKey "data") with
      | .error e => (.ok { status := 500, body := .json (adaErrBody e) }, [])
      | .ok formType =>
        match sendEmail o.resend with
        | .error e => (.ok { status := 500, body := .json (adaErrBody e) }, [])
        | .ok (emailResult, tr) =>
          (.ok { status := 200, body := .json (adaSuccessBody env formType emailResult) }, tr)

/-! ## Conversation Accessor (src/lib/supabase.js) -/

/-- One row of the `conversations` table.  `created_at` is the
client-supplied creation timestamp (an ISO string in the source; modelled as
a number since ISO timestamps compare chronologically). -/
structure Conversation where
  id : Nat
  user_id : String
  status : String
  created_at : Nat
deriving Repr, DecidableEq, Inhabited

/-- The `conversations` table with its id sequence. -/
structure ConvStore where
  convs : List Conversation
  nextId : Nat := 1
deriving Repr, DecidableEq, Inhabited

/-- Parsed JSON body of the lookup reply: a row array on 2xx, a JSON error
object (whose `.length` is `undefined`) on non-2xx — the source never checks
`response.ok` here. -/
inductive ConvQueryReply where
  | rows : List Conversation → ConvQueryReply
  | errBody : String → ConvQueryReply
deriving Repr, DecidableEq, Inhabited

/-- The row selected by
`user_id=eq.{userId}&status=eq.active&order=created_at.desc&limit=1`. -/
def latestActive (cs : ConvStore) (userId : String) : Option Conversation :=
  (cs.convs.filter (fun c => c.user_id == userId && c.status == "active")).foldl
    (fun acc c =>
      match acc with
      | none => some c
      | some b => if b.created_at ≤ c.created_at then some c else some b) none

/-- The lookup `fetch` of `getOrCreateConversation`. -/
def convQueryFetch (avail : StoreAvail) (cs : ConvStore) (userId : String) :
    Except JsError ConvQueryReply :=
  match avail with
  | .down e => .error e
  | .reject msg => .ok (.errBody msg)
  | .accept =>
      .ok (.rows (match latestActive cs userId with | some c => [c] | none => []))

/-- The creating `POST` of `getOrCreateConversation`
(`Prefer: return=representation`). -/
def convInsertFetch (avail : StoreAvail) (cs : ConvStore) (userId : String) (now : Nat) :
    Except JsError (List Conversation × ConvStore × List SideCall) :=
  match avail with
  | .down e => .error e
  | .reject _ => .ok ([], cs, [])
  | .accept =>
      let c : Conversation :=
        { id := cs.nextId, user_id := userId, status := "active", created_at := now }
      .ok ([c], { convs := cs.convs ++ [c], nextId := cs.nextId + 1 },
           [SideCall.convInsert c.id userId])

/-- `getOrCreateConversation(supabaseUrl, supabaseKey, userId)` from
src/lib/supabase.js: look up the most recently created active conversation
for the user and return it; otherwise create a new active one and return the
created row (`result[0]`, which is JS `undefined` when the create was
rejected).  Any thrown error is caught and `null` returned. -/
def getOrCreateConversation (a1 a2 : StoreAvail) (cs : ConvStore) (userId : String)
    (now : Nat) :
    Except JsError (Option Conversation) × ConvStore × List SideCall :=
  match convQueryFetch a1 cs userId with
  | .error _ => (.ok none, cs, [])
  | .ok reply =>
    let createBranch :=
      match convInsertFetch a2 cs userId now with
      | .error _ => (Except.ok none, cs, ([] : List SideCall))
      | .ok (rows, cs2, tr) => (Except.ok rows.head?, cs2, tr)
    match reply with
    | .errBody _ => createBranch
    | .rows [] => createBranch
    | .rows (c :: _) => (.ok (some c), cs, [])

/-! ## Derived descriptions of the logger operations -/

/-- The row inserted by an accepted `logExecutionStart`. -/
def mkStartRow (st : ExecStore) (c : Option String) (g : String) (i : Json)
    (n : String) : ExecRecord :=
  { id := st.nextId, conversation_id := jsOrNullStr c, agent_id := g,
    input := i, status := "running", created_at := n }

/-- The `PATCH` payload of `logExecutionComplete`. -/
def succPatch (out : Json) (d : Int) : ExecPatchBody :=
  { status := "success", output := some out, duration_ms := d }

/-- The `PATCH` payload of `logExecutionError`. -/
def errPatch (m : String) (d : Int) : ExecPatchBody :=
  { status := "error", error_message := some m, duration_ms := d }

theorem logExecutionStart_down (e : JsError) (st : ExecStore) (c : Option String)
    (g : String) (i : Json) (n : String) :
    logExecutionStart (.down e) st c g i n = (.ok none, st, []) := rfl

theorem logExecutionStart_reject (m : String) (st : ExecStore) (c : Option String)
    (g : String) (i : Json) (n : String) :
    logExecutionStart (.reject m) st c g i n = (.ok none, st, []) := rfl

theorem logExecutionStart_accept (st : ExecStore) (c : Option String)
    (g : String) (i : Json) (n : String) :
    logExecutionStart .accept st c g i n =
      (.ok (if st.nextId = 0 then none else some st.nextId),
       { records := st.records ++ [mkStartRow st c g i n], nextId := st.nextId + 1 },
       [SideCall.execInsert (mkStartRow st c g i n)]) := rfl

theorem logExecutionStart_isOk (a : StoreAvail) (st : ExecStore) (c : Option String)
    (g : String) (i : Json) (n : String) :
    ∃ eid st2 tr, logExecutionStart a st c g i n = (.ok eid, st2, tr) := by
  cases a with
  | down e => exact ⟨none, st, [], logExecutionStart_down ..⟩
  | reject m => exact ⟨none, st, [], logExecutionStart_reject ..⟩
  | accept => exact ⟨_, _, _, logExecutionStart_accept ..⟩

theorem logExecutionComplete_none (a : StoreAvail) (st : ExecStore) (out : Json)
    (d : Int) : logExecutionComplete a st none out d = (.ok (), st, []) := rfl

theorem logExecutionComplete_notUp (a : StoreAvail) (st : ExecStore)
    (eid : Option Nat) (out : Json) (d : Int) (h : a ≠ .accept) :
    logExecutionComplete a st eid out d = (.ok (), st, []) := by
  cases a with
  | accept => exact absurd rfl h
  | down e =>
      cases eid with
      | none => rfl
      | some i =>
          by_cases h0 : i = 0 <;> simp [logExecutionComplete, execPatchFetch, h0]
  | reject m =>
      cases eid with
      | none => rfl
      | some i =>
          by_cases h0 : i = 0 <;> simp [logExecutionComplete, execPatchFetch, h0]

theorem logExecutionComplete_accept (st : ExecStore) (i : Nat) (out : Json)
    (d : Int) (hi : i ≠ 0) :
    logExecutionComplete .accept st (some i) out d =
      (.ok (), patchStore st i (succPatch out d),
       [SideCall.execPatch i (succPatch out d)]) := by
  simp [logExecutionComplete, execPatchFetch, hi, succPatch]

theorem logExecutionComplete_isOk (a : StoreAvail) (st : ExecStore)
    (eid : Option Nat) (out : Json) (d : Int) :
    ∃ st2 tr, logExecutionComplete a st eid out d = (.ok (), st2, tr) := by
  by_cases ha : a = .accept
  · subst ha
    cases eid with
    | none => exact ⟨st, [], rfl⟩
    | some i =>
        by_cases h0 : i = 0
        · subst h0; exact ⟨st, [], rfl⟩
        · exact ⟨_, _, logExecutionComplete_accept st i out d h0⟩
  · exact ⟨st, [], logExecutionComplete_notUp a st eid out d ha⟩

theorem logExecutionError_none (a : StoreAvail) (st : ExecStore) (m : String)
    (d : Int) : logExecutionError a st none m d = (.ok (), st, []) := rfl

theorem logExecutionError_notUp (a : StoreAvail) (st : ExecStore)
    (eid : Option Nat) (m : String) (d : Int) (h : a ≠ .accept) :
    logExecutionError a st eid m d = (.ok (), st, []) := by
  cases a with
  | accept => exact absurd rfl h
  | down e =>
      cases eid with
      | none => rfl
      | some i =>
          by_cases h0 : i = 0 <;> simp [logExecutionError, execPatchFetch, h0]
  | reject mm =>
      cases eid with
      | none => rfl
      | some i =>
          by_cases h0 : i = 0 <;> simp [logExecutionError, execPatchFetch, h0]

theorem logExecutionError_accept (st : ExecStore) (i : Nat) (m : String)
    (d : Int) (hi : i ≠ 0) :
    logExecutionError .accept st (some i) m d =
      (.ok (), patchStore st i (errPatch m d),
       [SideCall.execPatch i (errPatch m d)]) := by
  simp [logExecutionError, execPatchFetch, hi, errPatch]

theorem logExecutionError_isOk (a : StoreAvail) (st : ExecStore)
    (eid : Option Nat) (m : String) (d : Int) :
    ∃ st2 tr, logExecutionError a st eid m d = (.ok (), st2, tr) := by
  by_cases ha : a = .accept
  · subst ha
    cases eid with
    | none => exact ⟨st, [], rfl⟩
    | some i =>
        by_cases h0 : i = 0
        · subst h0; exact ⟨st, [], rfl⟩
        · exact ⟨_, _, logExecutionError_accept st i m d h0⟩
  · exact ⟨st, [], logExecutionError_notUp a st eid m d ha⟩

/-! ## Derived descriptions of the Nova handler pieces -/

theorem getVoiceExamples_isOk (v : NotionQueryOut) :
    ∃ l, getVoiceExamples v = .ok l := by
  cases v <;> exact ⟨_, rfl⟩

theorem searchNotionWorkspace_isOk (v : NotionSearchOut) :
    ∃ l, searchNotionWorkspace v = .ok l := by
  cases v <;> exact ⟨_, rfl⟩

theorem destructTPS_ne_null (b : Json) (hb : b ≠ .null) :
    destructTPS b = .ok (b.getKey "topic", b.getKey "platform", b.getKey "style") := by
  cases b with
  | null => exact absurd rfl hb
  | bool x => rfl
  | str s => rfl
  | num n => rfl
  | arr xs => rfl
  | obj fs => rfl

theorem novaCatch_resp (o : NovaOracle) (st : ExecStore) (tr : List SideCall)
    (eid : Option Nat) (e : JsError) :
    ∃ st2 tr2, novaCatch o st tr eid e =
      (.ok (mkNovaError e.message eid o.isoFinish), st2, tr ++ tr2) := by
  obtain ⟨st2, tr2, h⟩ := logExecutionError_isOk o.finishAvail st eid e.message (o.t1 - o.t0)
  exact ⟨st2, tr2, by simp [novaCatch, h]⟩

theorem patchStore_fresh (st : ExecStore) (row : ExecRecord) (p : ExecPatchBody) (n : Nat)
    (hwf : st.WF) (hrow : row.id = st.nextId) :
    patchStore { records := st.records ++ [row], nextId := n } st.nextId p =
      { records := st.records ++ [applyPatch row p], nextId := n } := by
  have h1 : ∀ l : List ExecRecord, (∀ r ∈ l, r.id < st.nextId) →
      l.map (fun r => if r.id = st.nextId then applyPatch r p else r) = l := by
    intro l hl
    induction l with
    | nil => rfl
    | cons a tl ih =>
        simp only [List.map_cons]
        rw [if_neg (Nat.ne_of_lt (hl a (List.mem_cons_self a tl)))]
        rw [ih (fun r hr => hl r (List.mem_cons_of_mem a hr))]
  unfold patchStore
  simp only [List.map_append, List.map_cons, List.map_nil]
  rw [h1 st.records hwf, hrow]
  simp

theorem novaCatch_noneEid (o : NovaOracle) (st : ExecStore) (tr : List SideCall)
    (e : JsError) :
    novaCatch o st tr none e =
      (.ok (mkNovaError e.message none o.isoFinish), st, tr) := by
  simp [novaCatch, logExecutionError_none]

/-- The per-invocation lifecycle discipline over the execution store: every
pre-existing row survives unchanged (no deletion, no mutation of foreign or
terminal rows), every inserted row is still present at the end, and the
write trace is empty, a single insert of a `running` row, or such an insert
followed by exactly one patch of that same row to a terminal state. -/
def ExecLifecycle (st st2 : ExecStore) (tr : List SideCall) : Prop :=
  (∀ r ∈ st.records, r ∈ st2.records)
  ∧ (∀ rec, SideCall.execInsert rec ∈ tr → ∃ r2 ∈ st2.records, r2.id = rec.id)
  ∧ (tr = []
     ∨ (∃ rec, tr = [SideCall.execInsert rec] ∧ rec.status = "running")
     ∨ (∃ rec p, tr = [SideCall.execInsert rec, SideCall.execPatch rec.id p]
          ∧ rec.status = "running" ∧ (p.status = "success" ∨ p.status = "error")))

theorem lifecycle_unchanged (st : ExecStore) : ExecLifecycle st st [] :=
  ⟨fun _ hr => hr, fun _ h => absurd h (List.not_mem_nil _), Or.inl rfl⟩

theorem lifecycle_insert (st : ExecStore) (row : ExecRecord) (n : Nat)
    (hrow : row.status = "running") :
    ExecLifecycle st { records := st.records ++ [row], nextId := n }
      [SideCall.execInsert row] := by
  refine ⟨fun r hr => List.mem_append_left _ hr, ?_, Or.inr (Or.inl ⟨row, rfl, hrow⟩)⟩
  intro rec h
  have h2 := List.mem_singleton.mp h
  injection h2 with h3
  subst h3
  exact ⟨rec, List.mem_append_right _ (List.mem_singleton.mpr rfl), rfl⟩

theorem lifecycle_insert_patch (st : ExecStore) (row : ExecRecord) (p : ExecPatchBody)
    (n : Nat) (hrow : row.status = "running")
    (hp : p.status = "success" ∨ p.status = "error") :
    ExecLifecycle st { records := st.records ++ [applyPatch row p], nextId := n }
      [SideCall.execInsert row, SideCall.execPatch row.id p] := by
  refine ⟨fun r hr => List.mem_append_left _ hr, ?_, Or.inr (Or.inr ⟨row, p, rfl, hrow, hp⟩)⟩
  intro rec h
  rcases List.mem_cons.mp h with h1 | h2
  · injection h1 with h3
    subst h3
    exact ⟨applyPatch rec p, List.mem_append_right _ (List.mem_singleton.mpr rfl), rfl⟩
  · exact (SideCall.noConfusion (List.mem_singleton.mp h2))

theorem mkNovaSuccess_fields (output : Json) (eid : Option Nat) (iso : String) :
    (mkNovaSuccess output eid iso).status = 200
    ∧ (mkNovaSuccess output eid iso).bodyField "success" = some (.bool true)
    ∧ (mkNovaSuccess output eid iso).bodyField "output" = some output
    ∧ (mkNovaSuccess output eid iso).bodyField "error" = some .null := by
  refine ⟨rfl, rfl, rfl, rfl⟩

theorem mkNovaError_fields (m : String) (eid : Option Nat) (iso : String) :
    (mkNovaError m eid iso).status = 500
    ∧ (mkNovaError m eid iso).bodyField "success" = some (.bool false)
    ∧ (mkNovaError m eid iso).bodyField "output" = some .null
    ∧ (mkNovaError m eid iso).bodyField "error" = some (.str m) := by
  refine ⟨rfl, rfl, rfl, rfl⟩

theorem novaPost_lifecycle (o : NovaOracle) (st : ExecStore) (hwf : st.WF) :
    ExecLifecycle st (novaPost o st).2.1 (novaPost o st).2.2 := by
  cases hq : o.reqJson with
  | error e =>
      simp only [novaPost, hq, novaCatch_noneEid]
      exact lifecycle_unchanged st
  | ok b =>
      by_cases hb : b = Json.null
      · subst hb
        simp only [novaPost, hq, destructTPS, novaCatch_noneEid]
        exact lifecycle_unchanged st
      · have hd := destructTPS_ne_null b hb
        obtain ⟨ve, hve⟩ := getVoiceExamples_isOk o.voice
        obtain ⟨cd, hcd⟩ := searchNotionWorkspace_isOk o.search
        cases hsa : o.startAvail with
        | down e2 =>
            cases hgc : generateContent o.llm with
            | error e3 =>
                simp only [novaPost, hq, hd, hsa, logExecutionStart_down, hve, hcd, hgc,
                  novaCatch_noneEid]
                exact lifecycle_unchanged st
            | ok draft =>
                simp only [novaPost, hq, hd, hsa, logExecutionStart_down, hve, hcd, hgc,
                  logExecutionComplete_none, List.append_nil]
                exact lifecycle_unchanged st
        | reject m =>
            cases hgc : generateContent o.llm with
            | error e3 =>
                simp only [novaPost, hq, hd, hsa, logExecutionStart_reject, hve, hcd, hgc,
                  novaCatch_noneEid]
                exact lifecycle_unchanged st
            | ok draft =>
                simp only [novaPost, hq, hd, hsa, logExecutionStart_reject, hve, hcd, hgc,
                  logExecutionComplete_none, List.append_nil]
                exact lifecycle_unchanged st
        | accept =>
            simp only [novaPost, hq, hd, hsa, logExecutionStart_accept]
            generalize hrowdef : mkStartRow st none "nova"
              (novaInput (b.getKey "topic") (b.getKey "platform") (b.getKey "style"))
              o.isoStart = row
            have hid : row.id = st.nextId := by rw [← hrowdef]; rfl
            have hstat : row.status = "running" := by rw [← hrowdef]; rfl
            by_cases h0 : st.nextId = 0
            · simp only [h0, if_pos]
              cases hgc : generateContent o.llm with
              | error e3 =>
                  simp only [hve, hcd, hgc, novaCatch_noneEid]
                  exact lifecycle_insert st row _ hstat
              | ok draft =>
                  simp only [hve, hcd, hgc, logExecutionComplete_none, List.append_nil]
                  exact lifecycle_insert st row _ hstat
            · simp only [h0, if_neg, ite_false]
              cases hgc : generateContent o.llm with
              | error e3 =>
                  cases hfa : o.finishAvail with
                  | down e4 =>
                      have hnu := logExecutionError_notUp (.down e4)
                        { records := st.records ++ [row], nextId := st.nextId + 1 }
                        (some st.nextId) e3.message (o.t1 - o.t0)
                        (fun hh => StoreAvail.noConfusion hh)
                      simp only [hve, hcd, hgc, novaCatch, hfa, hnu, List.append_nil]
                      exact lifecycle_insert st row _ hstat
                  | reject m2 =>
                      have hnu := logExecutionError_notUp (.reject m2)
                        { records := st.records ++ [row], nextId := st.nextId + 1 }
                        (some st.nextId) e3.message (o.t1 - o.t0)
                        (fun hh => StoreAvail.noConfusion hh)
                      simp only [hve, hcd, hgc, novaCatch, hfa, hnu, List.append_nil]
                      exact lifecycle_insert st row _ hstat
                  | accept =>
                      have herr := logExecutionError_accept
                        { records := st.records ++ [row], nextId := st.nextId + 1 }
                        st.nextId e3.message (o.t1 - o.t0) h0
                      have hps := patchStore_fresh st row
                        (errPatch e3.message (o.t1 - o.t0)) (st.nextId + 1) hwf hid
                      simp only [hve, hcd, hgc, novaCatch, hfa, herr, hps,
                        List.singleton_append]
                      rw [← hid]
                      exact lifecycle_insert_patch st row _ _ hstat (Or.inr rfl)
              | ok draft =>
                  cases hfa : o.finishAvail with
                  | down e4 =>
                      have hnu := logExecutionComplete_notUp (.down e4)
                        { records := st.records ++ [row], nextId := st.nextId + 1 }
                        (some st.nextId)
                        (.obj (optField "draft" draft ++
                          [("voiceExamplesUsed", .num (ve.length : Int)),
                           ("contextDocsUsed", .num (cd.length : Int))]))
                        (o.t1 - o.t0)
                        (fun hh => StoreAvail.noConfusion hh)
                      simp only [hve, hcd, hgc, hnu, List.append_nil]
                      exact lifecycle_insert st row _ hstat
                  | reject m2 =>
                      have hnu := logExecutionComplete_notUp (.reject m2)
                        { records := st.records ++ [row], nextId := st.nextId + 1 }
                        (some st.nextId)
                        (.obj (optField "draft" draft ++
                          [("voiceExamplesUsed", .num (ve.length : Int)),
                           ("contextDocsUsed", .num (cd.length : Int))]))
                        (o.t1 - o.t0)
                        (fun hh => StoreAvail.noConfusion hh)
                      simp only [hve, hcd, hgc, hnu, List.append_nil]
                      exact lifecycle_insert st row _ hstat
                  | accept =>
                      have hcm := logExecutionComplete_accept
                        { records := st.records ++ [row], nextId := st.nextId + 1 }
                        st.nextId
                        (.obj (optField "draft" draft ++
                          [("voiceExamplesUsed", .num (ve.length : Int)),
                           ("contextDocsUsed", .num (cd.length : Int))]))
                        (o.t1 - o.t0) h0
                      have hps := patchStore_fresh st row
                        (succPatch
                          (.obj (optField "draft" draft ++
                            [("voiceExamplesUsed", .num (ve.length : Int)),
                             ("contextDocsUsed", .num (cd.length : Int))]))
                          (o.t1 - o.t0)) (st.nextId + 1) hwf hid
                      simp only [hve, hcd, hgc, hcm, hps, List.singleton_append]
                      rw [← hid]
                      exact lifecycle_insert_patch st row _ _ hstat (Or.inl rfl)

/-! ## Concrete fixtures used by witnesses and counterexamples -/

/-- An empty execution store. -/
def st0 : ExecStore := { records := [], nextId := 1 }

/-- A Nova environment with every variable unset. -/
def env0 : NovaEnv := {}

/-- An Ada environment with every variable unset. -/
def adaEnv0 : AdaEnv := {}

/-- A parsed Anthropic success body (`data.content[0].text`). -/
def goodLlmBody : Json :=
  .obj [("content", .arr [.obj [("text", .str "draft text")]])]

/-- A Nova run where every external service behaves. -/
def oracle0 : NovaOracle :=
  { reqJson := .ok (.obj [("topic", .str "pricing"), ("platform", .str "LinkedIn")]),
    startAvail := .accept, finishAvail := .accept,
    voice := .ok [], search := .ok [],
    llm := .reply 200 "raw" (some goodLlmBody),
    t0 := 0, t1 := 5,
    isoStart := "2025-10-26T17:00:00.000Z", isoFinish := "2025-10-26T17:00:00.005Z" }

/-- An Ada run with a parseable-but-empty webhook body and a healthy email
service. -/
def adaOracle0 : AdaOracle :=
  { reqJson := .ok (.obj []), resend := .reply 200 (.obj [("id", .str "em_1")]) }

/-! ## C1 -/

/-- C1: none of the three Execution Logger operations ever propagates a
transport or storage failure to its caller — for every store availability
all three return `.ok`; on a transport throw or a store rejection
`logExecutionStart` returns the `null` sentinel (and writes nothing); on an
accepted write it returns either the sentinel or the id of a durable row in
`running` state; `logExecutionComplete` and `logExecutionError` swallow
transport failures and return normally. -/
theorem c1_logger_never_propagates
    (st : ExecStore) (cid : Option String) (aid : String) (inp : Json) (now : String)
    (eid : Option Nat) (out : Json) (dur : Int) (msg : String) (e : JsError) (t : String) :
    (∀ a, ((logExecutionStart a st cid aid inp now).1).isOk = true)
    ∧ (∀ a, ((logExecutionComplete a st eid out dur).1).isOk = true)
    ∧ (∀ a, ((logExecutionError a st eid msg dur).1).isOk = true)
    ∧ logExecutionStart (.down e) st cid aid inp now = (.ok none, st, [])
    ∧ logExecutionStart (.reject t) st cid aid inp now = (.ok none, st, [])
    ∧ (∀ a, (logExecutionStart a st cid aid inp now).1 = .ok none
        ∨ ∃ r, (logExecutionStart a st cid aid inp now).1 = .ok (some r.id)
            ∧ r ∈ ((logExecutionStart a st cid aid inp now).2.1).records
            ∧ r.status = "running")
    ∧ logExecutionComplete (.down e) st eid out dur = (.ok (), st, [])
    ∧ logExecutionError (.down e) st eid msg dur = (.ok (), st, []) := by
  refine ⟨?_, ?_, ?_, logExecutionStart_down .., logExecutionStart_reject .., ?_, ?_, ?_⟩
  · intro a
    obtain ⟨eid2, st2, tr, h⟩ := logExecutionStart_isOk a st cid aid inp now
    simp [h, Except.isOk, Except.toBool]
  · intro a
    obtain ⟨st2, tr, h⟩ := logExecutionComplete_isOk a st eid out dur
    simp [h, Except.isOk, Except.toBool]
  · intro a
    obtain ⟨st2, tr, h⟩ := logExecutionError_isOk a st eid msg dur
    simp [h, Except.isOk, Except.toBool]
  · intro a
    cases a with
    | down e2 => left; simp [logExecutionStart_down]
    | reject m => left; simp [logExecutionStart_reject]
    | accept =>
        by_cases h0 : st.nextId = 0
        · left; simp [logExecutionStart_accept, h0]
        · right
          refine ⟨mkStartRow st cid aid inp now, ?_, ?_, rfl⟩
          · simp [logExecutionStart_accept, h0, mkStartRow]
          · simp [logExecutionStart_accept]
  · exact logExecutionComplete_notUp _ _ _ _ _ (fun h => StoreAvail.noConfusion h)
  · exact logExecutionError_notUp _ _ _ _ _ (fun h => StoreAvail.noConfusion h)

/-! ## C6 -/

/-- C6 (amended): on both workers a `GET` returns HTTP 200, never fails,
performs no domain work and no logging (the store and trace are untouched),
and its JSON body is a status report — `message` plus one boolean presence
flag per required credential (and, on Ada, key prefixes) — with every flag
`false` when the credential is unset. -/
theorem c6_liveness (envN : NovaEnv) (envA : AdaEnv) (o : NovaOracle) (oa : AdaOracle)
    (st : ExecStore) :
    novaFetch "GET" envN o st = (.ok { status := 200, body := .json (novaGetBody envN) }, st, [])
    ∧ adaFetch "GET" envA oa = (.ok { status := 200, body := .json (adaGetBody envA) }, [])
    ∧ (novaGetBody envN).getKey "message" = some (.str "Nova is running")
    ∧ (novaGetBody envN).getKey "hasAnthropicKey" = some (.bool (envFlag envN.anthropicApiKey))
    ∧ (novaGetBody envN).getKey "hasNotionToken" = some (.bool (envFlag envN.notionToken))
    ∧ (novaGetBody envN).getKey "hasNotionDatabase" = some (.bool (envFlag envN.notionDatabaseId))
    ∧ (novaGetBody envN).getKey "hasSupabaseUrl" = some (.bool (envFlag envN.supabaseUrl))
    ∧ (novaGetBody envN).getKey "hasSupabaseKey" = some (.bool (envFlag envN.supabaseKey))
    ∧ (adaGetBody envA).getKey "message" = some (.str "Worker is running")
    ∧ (adaGetBody envA).getKey "hasResendKey" = some (.bool (envFlag envA.resendApiKey))
    ∧ (adaGetBody envA).getKey "hasAnthropicKey" = some (.bool (envFlag envA.anthropicApiKey))
    ∧ envFlag none = false
    ∧ keyHead none = "NO KEY" := by
  refine ⟨rfl, rfl, rfl, rfl, rfl, rfl, rfl, rfl, rfl, rfl, rfl, rfl, rfl⟩

/-- C6 (counterexample): at a concrete `GET` with all credentials unset the
Nova probe body has none of the keys the claim requires — no `agentId`, no
`status`, no `requiredEnvVarsPresent`. -/
theorem c6_get_shape_cx :
    (novaFetch "GET" env0 oracle0 st0).1 = .ok { status := 200, body := .json (novaGetBody env0) }
    ∧ (novaGetBody env0).getKey "agentId" = none
    ∧ (novaGetBody env0).getKey "status" = none
    ∧ (novaGetBody env0).getKey "requiredEnvVarsPresent" = none := by
  refine ⟨rfl, rfl, rfl, rfl⟩

/-! ## C7 -/

/-- C7 (amended): a request with a method outside the designated set is
rejected with HTTP 405 before any logging side effect — the store is
untouched and the write trace is empty — but the 405 body is the plain text
"Method not allowed", not a JSON contract body. -/
theorem c7_method_reject (method : String) (env : NovaEnv) (envA : AdaEnv)
    (o : NovaOracle) (oa : AdaOracle) (st : ExecStore)
    (h1 : method ≠ "OPTIONS") (h2 : method ≠ "GET") (h3 : method ≠ "POST") :
    novaFetch method env o st =
      (.ok { status := 405, body := .text "Method not allowed" }, st, [])
    ∧ adaFetch method envA oa =
      (.ok { status := 405, body := .text "Method not allowed" }, []) := by
  constructor
  · simp [novaFetch, beq_iff_eq, h1, h2, h3]
  · simp [adaFetch, beq_iff_eq, h2, h3]

/-- C7 (witness): instantiated at the method `DELETE`. -/
theorem c7_method_reject_witness :
    novaFetch "DELETE" env0 oracle0 st0 =
      (.ok { status := 405, body := .text "Method not allowed" }, st0, [])
    ∧ adaFetch "DELETE" adaEnv0 adaOracle0 =
      (.ok { status := 405, body := .text "Method not allowed" }, []) :=
  c7_method_reject "DELETE" env0 adaEnv0 oracle0 adaOracle0 st0
    (by decide) (by decide) (by decide)

/-- C7 (counterexample): at the concrete method `PUT` the 405 response body
is plain text, so it carries no JSON field at all — the claim's "still
carries a JSON body matching the contract" fails. -/
theorem c7_plain_text_cx :
    novaFetch "PUT" env0 oracle0 st0 =
      (.ok { status := 405, body := .text "Method not allowed" }, st0, [])
    ∧ ({ status := 405, body := .text "Method not allowed" } : HttpResp).bodyField "success" = none
    ∧ (adaFetch "PUT" adaEnv0 adaOracle0).1 =
      .ok { status := 405, body := .text "Method not allowed" } := by
  refine ⟨rfl, rfl, rfl⟩

/-! ## C10 -/

/-- C10: the Ada handler never writes to the execution log — for every
method, environment and external behaviour, every side call in its trace is
an outbound email send (no execution-log insert or patch, no conversation
write), and at most one email is sent. -/
theorem c10_ada_frame (method : String) (env : AdaEnv) (o : AdaOracle) :
    (∀ c ∈ (adaFetch method env o).2, (∃ p, c = SideCall.email p) ∧ c.isExecWrite = false)
    ∧ (adaFetch method env o).2.length ≤ 1 := by
  by_cases hg : (method == "GET") = true
  · simp [adaFetch, hg]
  · by_cases hp : (method == "POST") = true
    · rcases o with ⟨rq, rs⟩
      cases rq with
      | error e => simp [adaFetch, hg, hp]
      | ok w =>
          cases hd : determineFormType (w.getKey "data") with
          | error e => simp [adaFetch, hg, hp, hd]
          | ok ft =>
              cases rs with
              | netThrow e => simp [adaFetch, hg, hp, hd, sendEmail]
              | reply status result =>
                  by_cases hok : replyOk status = true <;>
                    simp [adaFetch, hg, hp, hd, sendEmail, hok, SideCall.isExecWrite]
    · simp [adaFetch, hg, hp]

/-! ## C9 -/

/-- C9: `getOrCreateConversation` is idempotent under sequential calls for
the same user when the store is reachable: starting from a store with no
active conversation for the user, the first call inserts one active
conversation row and returns it, and a second sequential call returns that
same row (same id) without inserting another. -/
theorem c9_conversation_idempotent (cs : ConvStore) (userId : String) (n1 n2 : Nat)
    (hno : ∀ c ∈ cs.convs, ¬(c.user_id = userId ∧ c.status = "active")) :
    ∃ c : Conversation,
      getOrCreateConversation .accept .accept cs userId n1 =
        (.ok (some c),
         { convs := cs.convs ++ [c], nextId := cs.nextId + 1 },
         [SideCall.convInsert cs.nextId userId])
      ∧ c.id = cs.nextId ∧ c.user_id = userId ∧ c.status = "active"
      ∧ getOrCreateConversation .accept .accept
          { convs := cs.convs ++ [c], nextId := cs.nextId + 1 } userId n2 =
        (.ok (some c), { convs := cs.convs ++ [c], nextId := cs.nextId + 1 }, []) := by
  have hfil : cs.convs.filter (fun c => c.user_id == userId && c.status == "active") = [] := by
    rw [List.filter_eq_nil_iff]
    intro c hc
    have hnc := hno c hc
    simp only [Bool.and_eq_true, beq_iff_eq]
    intro h
    exact hnc h
  refine ⟨{ id := cs.nextId, user_id := userId, status := "active", created_at := n1 },
    ?_, rfl, rfl, rfl, ?_⟩
  · simp [getOrCreateConversation, convQueryFetch, latestActive, hfil, convInsertFetch]
  · have hlat2 : latestActive
        { convs := cs.convs ++
            [{ id := cs.nextId, user_id := userId, status := "active", created_at := n1 }],
          nextId := cs.nextId + 1 } userId =
        some { id := cs.nextId, user_id := userId, status := "active", created_at := n1 } := by
      unfold latestActive
      simp only [List.filter_append, hfil]
      simp [List.filter]
    simp [getOrCreateConversation, convQueryFetch, hlat2]

/-- C9 (witness): instantiated on the empty store for user `u1`. -/
theorem c9_conversation_idempotent_witness :
    ∃ c : Conversation,
      getOrCreateConversation .accept .accept { convs := [], nextId := 1 } "u1" 3 =
        (.ok (some c), { convs := [] ++ [c], nextId := 2 },
         [SideCall.convInsert 1 "u1"])
      ∧ c.id = 1 ∧ c.user_id = "u1" ∧ c.status = "active"
      ∧ getOrCreateConversation .accept .accept
          { convs := [] ++ [c], nextId := 2 } "u1" 4 =
        (.ok (some c), { convs := [] ++ [c], nextId := 2 }, []) :=
  c9_conversation_idempotent { convs := [], nextId := 1 } "u1" 3 4
    (by intro c hc; cases hc)

/-! ## C2 -/

/-- The 500 body Ada produces when its domain logic throws a `TypeError` on
a parseable webhook body with no `data` object. -/
def adaBugResp : HttpResp :=
  { status := 500,
    body := .json (adaErrBody (tyErr "Cannot read properties of undefined (reading formName)")) }

/-- An Ada webhook carrying a well-formed submission (no form name, empty
field list, so `determineFormType` falls through to its "request" default). -/
def adaOracleReq : AdaOracle :=
  { reqJson := .ok (.obj [("data", .obj [("fields", .arr [])])]),
    resend := .reply 200 (.obj [("id", .str "em_1")]) }

/-- The 200 body Ada produces for that submission. -/
def adaReqResp : HttpResp :=
  { status := 200,
    body := .json (adaSuccessBody adaEnv0 "request"
      { success := true, data := some (.obj [("id", .str "em_1")]) }) }

/-- C2 (code-bug evidence): evaluated at the failing input — a parseable
`POST` body `\x7b\x7d` — the Ada handler returns HTTP 500 whose JSON body
carries the raw `stack` of the thrown `TypeError` and has no `output` or
`metadata` field; and on a well-formed submission its success body likewise
has no `output`, `error` or `metadata` field, violating the AgentResponse
schema.  (The Nova handler does produce the schema; Ada is the bug.) -/
theorem c2_ada_envelope_divergence :
    adaFetch "POST" adaEnv0 adaOracle0 = (.ok adaBugResp, [])
    ∧ adaBugResp.bodyField "stack" =
        some (.str "TypeError: Cannot read properties of undefined (reading formName)")
    ∧ adaBugResp.bodyField "success" = some (.bool false)
    ∧ adaBugResp.bodyField "output" = none
    ∧ adaBugResp.bodyField "metadata" = none
    ∧ (∃ r, (adaFetch "POST" adaEnv0 adaOracleReq).1 = .ok r
        ∧ r.status = 200
        ∧ r.bodyField "success" = some (.bool true)
        ∧ r.bodyField "output" = none
        ∧ r.bodyField "error" = none
        ∧ r.bodyField "metadata" = none) := by
  refine ⟨rfl, rfl, rfl, rfl, rfl, ⟨adaReqResp, rfl, rfl, rfl, rfl, rfl, rfl⟩⟩

/-! ## C3 -/

/-- A Nova run whose logging store is unreachable and whose LLM call
rejects. -/
def novaOracleDown : NovaOracle :=
  { reqJson := .ok (.obj [("topic", .str "pricing"), ("platform", .str "LinkedIn")]),
    startAvail := .down { message := "store unreachable" },
    finishAvail := .down { message := "store unreachable" },
    voice := .ok [], search := .ok [],
    llm := .netThrow { message := "rate limited" },
    t0 := 0, t1 := 7,
    isoStart := "2025-10-26T17:00:00.000Z", isoFinish := "2025-10-26T17:00:00.007Z" }

/-- C3 (counterexample): at a concrete run whose domain logic throws
`rate limited` while the logging store is unreachable, the handler still
returns the 500 failure envelope but zero `error`-state ExecutionRecords
are created — the claim's "never zero" fails. -/
theorem c3_zero_records_cx :
    novaFetch "POST" env0 novaOracleDown st0 =
      (.ok (mkNovaError "rate limited" none novaOracleDown.isoFinish), st0, [])
    ∧ (st0.records.filter (fun r => r.status == "error")).length = 0
    ∧ (mkNovaError "rate limited" none novaOracleDown.isoFinish).status = 500
    ∧ (mkNovaError "rate limited" none novaOracleDown.isoFinish).bodyField "success" =
        some (.bool false) := by
  refine ⟨rfl, rfl, rfl, rfl⟩

/-- C3 (amended): for an accepted request whose domain logic throws, when
the logging store accepts both writes (and the id sequence is live and the
clock does not run backwards), the handler returns HTTP 500 with
`success=false` and `error` equal to the thrown message, and the store gains
exactly one new record — in `error` state, with `errorMessage` equal to that
message and `durationMs >= 0`; with the store unreachable the same response
is produced but zero records may be created (see the counterexample). -/
theorem c3_error_record (env : NovaEnv) (o : NovaOracle) (st : ExecStore) (b : Json)
    (e : JsError)
    (hwf : st.WF) (h0 : st.nextId ≠ 0)
    (hreq : o.reqJson = .ok b) (hb : b ≠ .null)
    (hsa : o.startAvail = .accept) (hfa : o.finishAvail = .accept)
    (hllm : generateContent o.llm = .error e) (ht : o.t0 ≤ o.t1) :
    ∃ rec : ExecRecord,
      novaFetch "POST" env o st =
        (.ok (mkNovaError e.message (some st.nextId) o.isoFinish),
         { records := st.records ++ [rec], nextId := st.nextId + 1 },
         [SideCall.execInsert
            (mkStartRow st none "nova"
              (novaInput (b.getKey "topic") (b.getKey "platform") (b.getKey "style"))
              o.isoStart),
          SideCall.execPatch st.nextId (errPatch e.message (o.t1 - o.t0))])
      ∧ rec.status = "error" ∧ rec.error_message = some e.message
      ∧ rec.duration_ms = some (o.t1 - o.t0) ∧ 0 ≤ o.t1 - o.t0 := by
  have hrow :
      (mkStartRow st none "nova"
        (novaInput (b.getKey "topic") (b.getKey "platform") (b.getKey "style"))
        o.isoStart).id = st.nextId := rfl
  refine ⟨applyPatch
      (mkStartRow st none "nova"
        (novaInput (b.getKey "topic") (b.getKey "platform") (b.getKey "style"))
        o.isoStart)
      (errPatch e.message (o.t1 - o.t0)), ?_, rfl, rfl, rfl, by omega⟩
  obtain ⟨ve, hve⟩ := getVoiceExamples_isOk o.voice
  obtain ⟨cd, hcd⟩ := searchNotionWorkspace_isOk o.search
  have hrun : novaFetch "POST" env o st = novaPost o st := rfl
  have hps := patchStore_fresh st
    (mkStartRow st none "nova"
      (novaInput (b.getKey "topic") (b.getKey "platform") (b.getKey "style")) o.isoStart)
    (errPatch e.message (o.t1 - o.t0)) (st.nextId + 1) hwf hrow
  have herr := logExecutionError_accept
    { records := st.records ++
        [mkStartRow st none "nova"
          (novaInput (b.getKey "topic") (b.getKey "platform") (b.getKey "style")) o.isoStart],
      nextId := st.nextId + 1 }
    st.nextId e.message (o.t1 - o.t0) h0
  rw [hrun]
  simp only [novaPost, hreq, destructTPS_ne_null b hb, hsa, logExecutionStart_accept, h0,
             ite_false, hve, hcd, hllm, novaCatch, hfa, herr, hps]
  simp

/-- A Nova run identical to `oracle0` except that the LLM call rejects. -/
def novaOracleErr : NovaOracle :=
  { oracle0 with llm := .netThrow { message := "rate limited" } }

/-- C3 (witness): the amended theorem instantiated at a concrete run whose
LLM call rejects with "rate limited" while the store accepts both writes. -/
theorem c3_error_record_witness :
    ∃ rec : ExecRecord,
      novaFetch "POST" env0 novaOracleErr st0 =
        (.ok (mkNovaError "rate limited" (some st0.nextId) novaOracleErr.isoFinish),
         { records := st0.records ++ [rec], nextId := st0.nextId + 1 },
         [SideCall.execInsert
            (mkStartRow st0 none "nova"
              (novaInput ((Json.obj [("topic", .str "pricing"), ("platform", .str "LinkedIn")]).getKey "topic")
                ((Json.obj [("topic", .str "pricing"), ("platform", .str "LinkedIn")]).getKey "platform")
                ((Json.obj [("topic", .str "pricing"), ("platform", .str "LinkedIn")]).getKey "style"))
              novaOracleErr.isoStart),
          SideCall.execPatch st0.nextId
            (errPatch "rate limited" (novaOracleErr.t1 - novaOracleErr.t0))])
      ∧ rec.status = "error" ∧ rec.error_message = some "rate limited"
      ∧ rec.duration_ms = some (novaOracleErr.t1 - novaOracleErr.t0)
      ∧ 0 ≤ novaOracleErr.t1 - novaOracleErr.t0 :=
  c3_error_record env0 novaOracleErr st0
    (Json.obj [("topic", .str "pricing"), ("platform", .str "LinkedIn")])
    { message := "rate limited" }
    (by intro r hr; simp [st0] at hr) (by decide) rfl
    (fun h => Json.noConfusion h) rfl rfl rfl (by decide)

/-! ## C4 -/

/-- C4: for a fixed request, collaborator behaviour and clock, the primary
response of the Nova handler is independent of the availability of the
logging store: any two runs that differ only in store availability (and
starting store contents) both return normally, with the same HTTP status
and the same `success`, `output` and `error` body fields. -/
theorem c4_logging_invisible (env1 env2 : NovaEnv) (o1 o2 : NovaOracle)
    (st1 st2 : ExecStore)
    (hreq : o1.reqJson = o2.reqJson) (hv : o1.voice = o2.voice)
    (hs : o1.search = o2.search) (hl : o1.llm = o2.llm) :
    ∃ r1 r2, (novaFetch "POST" env1 o1 st1).1 = .ok r1
      ∧ (novaFetch "POST" env2 o2 st2).1 = .ok r2
      ∧ r1.status = r2.status
      ∧ r1.bodyField "success" = r2.bodyField "success"
      ∧ r1.bodyField "output" = r2.bodyField "output"
      ∧ r1.bodyField "error" = r2.bodyField "error" := by
  have h1 : novaFetch "POST" env1 o1 st1 = novaPost o1 st1 := rfl
  have h2 : novaFetch "POST" env2 o2 st2 = novaPost o2 st2 := rfl
  rw [h1, h2]
  cases hq : o1.reqJson with
  | error e =>
      have hq2 : o2.reqJson = .error e := by rw [← hreq, hq]
      obtain ⟨sa, ta, hc1⟩ := novaCatch_resp o1 st1 [] none e
      obtain ⟨sb, tb, hc2⟩ := novaCatch_resp o2 st2 [] none e
      refine ⟨mkNovaError e.message none o1.isoFinish,
        mkNovaError e.message none o2.isoFinish, ?_, ?_, rfl, rfl, rfl, rfl⟩
      · simp only [novaPost, hq, hc1]
      · simp only [novaPost, hq2, hc2]
  | ok b =>
      have hq2 : o2.reqJson = .ok b := by rw [← hreq, hq]
      by_cases hb : b = Json.null
      · subst hb
        obtain ⟨sa, ta, hc1⟩ := novaCatch_resp o1 st1 [] none
          (tyErr "Cannot destructure property topic of null")
        obtain ⟨sb, tb, hc2⟩ := novaCatch_resp o2 st2 [] none
          (tyErr "Cannot destructure property topic of null")
        refine ⟨mkNovaError (tyErr "Cannot destructure property topic of null").message
            none o1.isoFinish,
          mkNovaError (tyErr "Cannot destructure property topic of null").message
            none o2.isoFinish, ?_, ?_, rfl, rfl, rfl, rfl⟩
        · simp only [novaPost, hq, destructTPS, hc1]
        · simp only [novaPost, hq2, destructTPS, hc2]
      · have hd := destructTPS_ne_null b hb
        obtain ⟨eid1, sA, tA, hst1⟩ := logExecutionStart_isOk o1.startAvail st1 none "nova"
          (novaInput (b.getKey "topic") (b.getKey "platform") (b.getKey "style")) o1.isoStart
        obtain ⟨eid2, sB, tB, hst2⟩ := logExecutionStart_isOk o2.startAvail st2 none "nova"
          (novaInput (b.getKey "topic") (b.getKey "platform") (b.getKey "style")) o2.isoStart
        obtain ⟨ve, hve⟩ := getVoiceExamples_isOk o1.voice
        have hve2 : getVoiceExamples o2.voice = .ok ve := by rw [← hv]; exact hve
        obtain ⟨cd, hcd⟩ := searchNotionWorkspace_isOk o1.search
        have hcd2 : searchNotionWorkspace o2.search = .ok cd := by rw [← hs]; exact hcd
        cases hgc : generateContent o1.llm with
        | error e =>
            have hgc2 : generateContent o2.llm = .error e := by rw [← hl]; exact hgc
            obtain ⟨sa2, ta2, hc1⟩ := novaCatch_resp o1 sA tA eid1 e
            obtain ⟨sb2, tb2, hc2⟩ := novaCatch_resp o2 sB tB eid2 e
            refine ⟨mkNovaError e.message eid1 o1.isoFinish,
              mkNovaError e.message eid2 o2.isoFinish, ?_, ?_, rfl, rfl, rfl, rfl⟩
            · simp only [novaPost, hq, hd, hst1, hve, hcd, hgc, hc1]
            · simp only [novaPost, hq2, hd, hst2, hve2, hcd2, hgc2, hc2]
        | ok draft =>
            have hgc2 : generateContent o2.llm = .ok draft := by rw [← hl]; exact hgc
            obtain ⟨sC, tC, hcm1⟩ := logExecutionComplete_isOk o1.finishAvail sA eid1
              (.obj (optField "draft" draft ++
                [("voiceExamplesUsed", .num (ve.length : Int)),
                 ("contextDocsUsed", .num (cd.length : Int))])) (o1.t1 - o1.t0)
            obtain ⟨sD, tD, hcm2⟩ := logExecutionComplete_isOk o2.finishAvail sB eid2
              (.obj (optField "draft" draft ++
                [("voiceExamplesUsed", .num (ve.length : Int)),
                 ("contextDocsUsed", .num (cd.length : Int))])) (o2.t1 - o2.t0)
            refine ⟨mkNovaSuccess
                (.obj (optField "draft" draft ++
                  [("voiceExamplesUsed", .num (ve.length : Int)),
                   ("contextDocsUsed", .num (cd.length : Int))])) eid1 o1.isoFinish,
              mkNovaSuccess
                (.obj (optField "draft" draft ++
                  [("voiceExamplesUsed", .num (ve.length : Int)),
                   ("contextDocsUsed", .num (cd.length : Int))])) eid2 o2.isoFinish,
              ?_, ?_, rfl, rfl, rfl, rfl⟩
            · simp only [novaPost, hq, hd, hst1, hve, hcd, hgc, hcm1]
            · simp only [novaPost, hq2, hd, hst2, hve2, hcd2, hgc2, hcm2]

/-- A Nova run identical to `oracle0` except that the logging store is
unreachable for both writes. -/
def novaOracleNoLog : NovaOracle :=
  { oracle0 with
    startAvail := .down { message := "store down" },
    finishAvail := .down { message := "store down" } }

/-- C4 (witness): the theorem instantiated at two concrete runs that differ
only in logging-store availability. -/
theorem c4_logging_invisible_witness :
    ∃ r1 r2, (novaFetch "POST" env0 oracle0 st0).1 = .ok r1
      ∧ (novaFetch "POST" env0 novaOracleNoLog st0).1 = .ok r2
      ∧ r1.status = r2.status
      ∧ r1.bodyField "success" = r2.bodyField "success"
      ∧ r1.bodyField "output" = r2.bodyField "output"
      ∧ r1.bodyField "error" = r2.bodyField "error" :=
  c4_logging_invisible env0 env0 oracle0 novaOracleNoLog st0 st0 rfl rfl rfl rfl

/-! ## C5 -/

/-- C5: every execution record obeys the lifecycle state machine over one
handler invocation — for any method, environment, store and external
behaviour: pre-existing rows are never mutated or deleted, any row this
invocation inserts is created in `running` state and survives to the end,
and the invocation performs at most one further write, a single patch of
that same row to `success` or `error` (see `ExecLifecycle`). -/
theorem c5_exec_lifecycle (method : String) (env : NovaEnv) (o : NovaOracle)
    (st : ExecStore) (hwf : st.WF) :
    ExecLifecycle st (novaFetch method env o st).2.1 (novaFetch method env o st).2.2 := by
  by_cases hm1 : (method == "OPTIONS") = true
  · simp only [novaFetch, hm1, if_true]
    exact lifecycle_unchanged st
  · by_cases hm2 : (method == "GET") = true
    · simp only [novaFetch, hm1, hm2, if_true, if_false, Bool.false_eq_true]
      exact lifecycle_unchanged st
    · by_cases hm3 : (method == "POST") = true
      · have hrw : novaFetch method env o st = novaPost o st := by
          simp only [novaFetch, hm1, hm2, hm3, Bool.not_true, if_false, Bool.false_eq_true,
            ite_false]
        rw [hrw]
        exact novaPost_lifecycle o st hwf
      · simp only [novaFetch, hm1, hm2, hm3, Bool.not_false, if_true, if_false,
          Bool.false_eq_true]
        exact lifecycle_unchanged st

/-- C5 (witness): the lifecycle theorem instantiated at a concrete healthy
`POST` run on the empty store. -/
theorem c5_exec_lifecycle_witness :
    ExecLifecycle st0 (novaFetch "POST" env0 oracle0 st0).2.1
      (novaFetch "POST" env0 oracle0 st0).2.2 :=
  c5_exec_lifecycle "POST" env0 oracle0 st0 (by intro r hr; simp [st0] at hr)

/-! ## C8 -/

/-- C8 (amended): LLM-collaborator failures are surfaced as domain failures
with identifying context — a non-2xx reply throws a message naming the
collaborator and its status, an unparseable body throws a wrapped parse
error, a rejected call propagates — and any such domain failure reaches the
caller through the handler's 500 error path with the failure's message;
knowledge-store (Notion) failures, by contrast, are caught and yield an
empty result list absorbed into a success response. -/
theorem c8_collab_failures (status : Nat) (bodyText t : String) (data : Json)
    (e : JsError) (env : NovaEnv) (o : NovaOracle) (st : ExecStore) (b : Json)
    (hstatus : replyOk status = false)
    (hreq : o.reqJson = .ok b) (hb : b ≠ .null)
    (hllm : generateContent o.llm = .error e) :
    generateContent (.reply status bodyText (some data)) =
        .error { message := "Claude API error (" ++ toString status ++ "): " ++ data.stringify }
    ∧ generateContent (.reply status bodyText none) =
        .error { message := "Failed to parse Anthropic response: " ++ bodyText }
    ∧ generateContent (.netThrow e) = .error e
    ∧ getVoiceExamples (.notOk t) = .ok []
    ∧ getVoiceExamples (.netThrow e) = .ok []
    ∧ searchNotionWorkspace (.notOk t) = .ok []
    ∧ searchNotionWorkspace (.netThrow e) = .ok []
    ∧ ∃ r, (novaFetch "POST" env o st).1 = .ok r ∧ r.status = 500
        ∧ r.bodyField "success" = some (.bool false)
        ∧ r.bodyField "error" = some (.str e.message) := by
  refine ⟨by simp [generateContent, hstatus], rfl, rfl, rfl, rfl, rfl, rfl, ?_⟩
  have hrw : novaFetch "POST" env o st = novaPost o st := rfl
  rw [hrw]
  obtain ⟨eid, sA, tA, hst⟩ := logExecutionStart_isOk o.startAvail st none "nova"
    (novaInput (b.getKey "topic") (b.getKey "platform") (b.getKey "style")) o.isoStart
  obtain ⟨ve, hve⟩ := getVoiceExamples_isOk o.voice
  obtain ⟨cd, hcd⟩ := searchNotionWorkspace_isOk o.search
  obtain ⟨s2, t2, hc⟩ := novaCatch_resp o sA tA eid e
  refine ⟨mkNovaError e.message eid o.isoFinish, ?_, rfl, rfl, rfl⟩
  simp only [novaPost, hreq, destructTPS_ne_null b hb, hst, hve, hcd, hllm, hc]

/-- C8 (witness): the amended theorem instantiated at status 500, a concrete
rejected LLM call and a concrete run. -/
theorem c8_collab_failures_witness :
    generateContent (.reply 500 "overloaded" (some (Json.obj []))) =
        .error { message := "Claude API error (" ++ toString 500 ++ "): " ++ (Json.obj []).stringify }
    ∧ generateContent (.reply 500 "overloaded" none) =
        .error { message := "Failed to parse Anthropic response: " ++ "overloaded" }
    ∧ generateContent (.netThrow { message := "rate limited" }) =
        .error { message := "rate limited" }
    ∧ getVoiceExamples (.notOk "unauthorized") = .ok []
    ∧ getVoiceExamples (.netThrow { message := "rate limited" }) = .ok []
    ∧ searchNotionWorkspace (.notOk "unauthorized") = .ok []
    ∧ searchNotionWorkspace (.netThrow { message := "rate limited" }) = .ok []
    ∧ ∃ r, (novaFetch "POST" env0 novaOracleErr st0).1 = .ok r ∧ r.status = 500
        ∧ r.bodyField "success" = some (.bool false)
        ∧ r.bodyField "error" = some (.str ({ message := "rate limited" } : JsError).message) :=
  c8_collab_failures 500 "overloaded" "unauthorized" (Json.obj [])
    { message := "rate limited" } env0 novaOracleErr st0
    (Json.obj [("topic", .str "pricing"), ("platform", .str "LinkedIn")])
    rfl rfl (fun h => Json.noConfusion h) rfl

/-- A Nova run identical to `oracle0` except that the Notion voice-example
query replies non-2xx. -/
def novaOracleNotion : NovaOracle :=
  { oracle0 with voice := .notOk "unauthorized" }

/-- The success output Nova produces when the voice-example query failed
silently. -/
def novaOut0 : Json :=
  .obj [("draft", .str "draft text"), ("voiceExamplesUsed", .num 0),
        ("contextDocsUsed", .num 0)]

/-- C8 (counterexample): at a concrete run whose knowledge-store query fails
(non-2xx), the handler still returns HTTP 200 with `success:true` — the
knowledge-store failure is silently absorbed as an empty example list, not
surfaced as a domain failure, so the claim as stated fails. -/
theorem c8_notion_absorbed_cx :
    getVoiceExamples (.notOk "unauthorized") = .ok []
    ∧ (novaFetch "POST" env0 novaOracleNotion st0).1 =
        .ok (mkNovaSuccess novaOut0 (some 1) novaOracleNotion.isoFinish)
    ∧ (mkNovaSuccess novaOut0 (some 1) novaOracleNotion.isoFinish).status = 200
    ∧ (mkNovaSuccess novaOut0 (some 1) novaOracleNotion.isoFinish).bodyField "success" =
        some (.bool true)
    ∧ (mkNovaSuccess novaOut0 (some 1) novaOracleNotion.isoFinish).bodyField "error" =
        some .null := by
  refine ⟨rfl, rfl, rfl, rfl, rfl⟩

end AgentInfra
